import Mathlib

/-!
Verification of the documentation-crawler / packaging-recommendation engine.

The JavaScript sources are shallowly embedded as Lean functions:

* `src/backend/lib/crawler.js` — `validateUrl`, `fetchPage`, `shallowCrawl`
* `src/backend/crawler.js`     — `classifyInstaller`, `fetchWithRetry`,
                                 `crawlDocumentationPages`, `crawlAndAnalyze`
* `src/lib/parser.js`          — `extractGuid`, `inferDetectionRules`,
                                 and the packaging step of `buildPackagingResult`

External effects (WHATWG URL parsing, the network, cheerio/JSDOM HTML
parsing, and JS regular-expression helpers whose exact output no claim
depends on) are supplied as explicit oracle parameters; all control flow,
string comparisons and fallback policy are translated directly from the
source.  JS `null`/`undefined` is modelled as `Option`, a thrown exception
as `Except.error`.
-/

/-! ## String helpers (JS `toLowerCase`, `toUpperCase`, `includes`, slicing) -/

/-- JS `String.prototype.toLowerCase` (ASCII-level model). -/
def strLower (s : String) : String := ⟨s.data.map Char.toLower⟩

/-- JS `String.prototype.toUpperCase` (ASCII-level model). -/
def strUpper (s : String) : String := ⟨s.data.map Char.toUpper⟩

/-- Boolean list-prefix test. -/
def listPrefixB : List Char → List Char → Bool
  | [], _ => true
  | _ :: _, [] => false
  | a :: as, b :: bs => a == b && listPrefixB as bs

/-- Boolean list-infix test. -/
def listInfixB (n : List Char) : List Char → Bool
  | [] => n.isEmpty
  | b :: t => listPrefixB n (b :: t) || listInfixB n t

/-- JS `String.prototype.includes`: `strIncludes hay needle` is true when
`needle` occurs as a contiguous substring of `hay`. -/
def strIncludes (hay needle : String) : Bool := listInfixB needle.data hay.data

/-- JS `String.prototype.startsWith`, over the character lists. -/
def jsStartsWith (s pre : String) : Bool := listPrefixB pre.data s.data

deriving instance DecidableEq for Except

/-! ## URL and network model -/

/-- The result of a successful `new URL(...)` parse: the components the
crawler code reads.  Parsing itself (WHATWG algorithm) is an oracle
`String → Option Url`; `none` models the constructor throwing. -/
structure Url where
  protocol : String
  hostname : String
  pathname : String
deriving Repr, DecidableEq

/-- One HTTP response as observed by `fetchPage`
(`src/backend/lib/crawler.js`).  A network-level failure (DNS error,
connection reset, abort on timeout) is modelled as the oracle returning
`none` instead of a `Response`. -/
structure Response where
  ok : Bool
  contentType : String
  body : String
deriving Repr, DecidableEq

/-! ## `src/backend/lib/crawler.js` -/

/-- `blockedProtocols` list, `src/backend/lib/crawler.js:20`. -/
def blockedProtocols : List String :=
  ["file:", "ftp:", "smb:", "data:", "javascript:"]

/-- `blockedHosts` list, `src/backend/lib/crawler.js:33-56`.  Note: it does
not contain `169.254.`; that entry appears only in the `isUrlSafe` variant
of `src/unnamed/part_009`. -/
def blockedHosts : List String :=
  ["localhost", "127.0.0.1", "0.0.0.0", "::1",
   "10.",
   "172.16.", "172.17.", "172.18.", "172.19.", "172.20.", "172.21.",
   "172.22.", "172.23.", "172.24.", "172.25.", "172.26.", "172.27.",
   "172.28.", "172.29.", "172.30.", "172.31.",
   "192.168."]

/-- `validateUrl`, `src/backend/lib/crawler.js:15-72`, over the parse
result of its input string (`none` = `new URL` threw, handled by the
`catch` returning `false`). -/
def validateUrl (parsed : Option Url) : Bool :=
  match parsed with
  | none => false
  | some u =>
    if blockedProtocols.contains u.protocol then false
    else if !(["http:", "https:"].contains u.protocol) then false
    else
      let hostname := strLower u.hostname
      if blockedHosts.any (fun blocked =>
          hostname == blocked || jsStartsWith hostname blocked) then false
      else true

/-- `fetchPage`, `src/backend/lib/crawler.js:80-128`.
`parse` is the URL-parse oracle, `net` the network oracle.
The function throws (`Except.error`) when validation fails (line 82);
every other failure (fetch threw / timed out = `net url = none`,
non-2xx status, non-HTML content type) returns `null` (`.ok none`). -/
def fetchPage (parse : String → Option Url) (net : String → Option Response)
    (url : String) : Except String (Option String) :=
  if !validateUrl (parse url) then .error "Invalid or unsafe URL"
  else .ok (match net url with
    | none => none
    | some r =>
      if !r.ok then none
      else if !(strIncludes r.contentType "text/html")
           && !(strIncludes r.contentType "application/xhtml") then none
      else some r.body)

/-- A crawled page as stored by `shallowCrawl` (`{ url, html }`). -/
structure CrawledPage where
  url : String
  html : String
deriving Repr, DecidableEq

/-- The link-enqueueing loop inside `shallowCrawl`
(`src/backend/lib/crawler.js:212-216`): each discovered link is appended
when it is not yet visited and the queue is shorter than `maxPages`. -/
def enqueueLinks (visited : List String) (maxPages : Nat)
    (toVisit links : List String) : List String :=
  links.foldl (fun q link =>
    if ¬ visited.contains link ∧ q.length < maxPages then q ++ [link] else q)
    toVisit

/-- The `while` loop of `shallowCrawl` (`src/backend/lib/crawler.js:195-222`)
as a recursive function over (visited set, queue, collected pages).
A thrown `fetchPage` (unsafe URL) propagates, aborting the crawl, exactly as
in the source where the `await fetchPage(url)` is not wrapped in `try`.
Links are extracted only when the page just collected is the first one
(`crawledPages.length === 1` after the push, line 207). -/
def shallowCrawlAux (parse : String → Option Url) (net : String → Option Response)
    (linksOf : String → String → List String) (maxPages : Nat)
    (visited toVisit : List String) (pages : List CrawledPage) :
    Except String (List CrawledPage) :=
  match toVisit with
  | [] => .ok pages
  | url :: rest =>
    if maxPages ≤ pages.length then .ok pages
    else if visited.contains url then
      shallowCrawlAux parse net linksOf maxPages visited rest pages
    else
      match fetchPage parse net url with
      | .error e => .error e
      | .ok none => shallowCrawlAux parse net linksOf maxPages (url :: visited) rest pages
      | .ok (some html) =>
        if hpz : pages.length = 0 then
          shallowCrawlAux parse net linksOf maxPages (url :: visited)
            (enqueueLinks (url :: visited) maxPages rest (linksOf html url))
            (pages ++ [⟨url, html⟩])
        else
          shallowCrawlAux parse net linksOf maxPages (url :: visited) rest
            (pages ++ [⟨url, html⟩])
termination_by toVisit.length + (if pages.length = 0 then maxPages + 1 else 0)
decreasing_by
  · simp only [List.length_cons]; omega
  · simp only [List.length_cons]; omega
  · have hb : ∀ (ls q : List String),
        (enqueueLinks (url :: visited) maxPages q ls).length ≤ max q.length maxPages := by
      intro ls
      induction ls with
      | nil => intro q; simp [enqueueLinks]
      | cons l ls ih =>
        intro q
        have step := ih (if ¬ (url :: visited).contains l ∧ q.length < maxPages
                         then q ++ [l] else q)
        simp only [enqueueLinks, List.foldl_cons] at step ⊢
        refine le_trans step ?_
        by_cases h : ¬ (url :: visited).contains l ∧ q.length < maxPages
        · rw [if_pos h]
          simp only [List.length_append, List.length_singleton]
          exact Nat.max_le.mpr
            ⟨le_trans h.2 (Nat.le_max_right _ _), Nat.le_max_right _ _⟩
        · rw [if_neg h]
    have hm : (enqueueLinks (url :: visited) maxPages rest (linksOf html url)).length
        ≤ rest.length + maxPages :=
      le_trans (hb _ _) (Nat.max_le.mpr ⟨Nat.le_add_right _ _, Nat.le_add_left _ _⟩)
    simp only [List.length_append, List.length_cons, List.length_singleton]
    split <;> omega
  · simp only [List.length_append, List.length_cons, List.length_singleton]
    split <;> omega

/-- `shallowCrawl`, `src/backend/lib/crawler.js:188-227`. -/
def shallowCrawl (parse : String → Option Url) (net : String → Option Response)
    (linksOf : String → String → List String)
    (startUrl : String) (maxPages : Nat) : Except String (List CrawledPage) :=
  shallowCrawlAux parse net linksOf maxPages [] [startUrl] []

/-! ## `src/backend/crawler.js` -/

/-- JS `String.prototype.substring(0, n)`. -/
def strTake (s : String) (n : Nat) : String := ⟨s.data.take n⟩

/-- Split a string at its last dot: `lastDotSplit s = some (base, ext)`
with `ext` carrying the leading dot, mirroring
`baseName.lastIndexOf('.')` / `slice` in `classifyInstaller`
(`src/backend/crawler.js:29-33`); `none` when the string has no dot. -/
def lastDotSplit (s : String) : Option (String × String) :=
  let rev := s.data.reverse
  if rev.contains '.' then
    let extRev := rev.takeWhile (· ≠ '.')
    let baseRev := (rev.dropWhile (· ≠ '.')).drop 1
    some (⟨baseRev.reverse⟩, ⟨'.' :: extRev.reverse⟩)
  else none

/-- Result of `classifyInstaller`: `{ kind, extension, baseName }`. -/
structure Classification where
  kind : String
  extension : String
  baseName : String
deriving Repr, DecidableEq

/-- The extension lookup of `classifyInstaller`
(`src/backend/crawler.js:36-43`): the comparison is against these exact
lowercase literals, and `.tar.gz` can never be produced by the
last-dot extraction above. -/
def kindOfExtension (extension : String) : String :=
  if extension = ".msi" then "MSI"
  else if extension = ".exe" then "EXE"
  else if [".zip", ".7z", ".rar", ".tar.gz", ".tgz"].contains extension then "ARCHIVE"
  else "UNKNOWN"

/-- The exact extensions recognized by `kindOfExtension`
(`src/backend/crawler.js:37-42`), collected for stating case-sensitivity. -/
def recognizedExtensions : List String :=
  [".msi", ".exe", ".zip", ".7z", ".rar", ".tar.gz", ".tgz"]

/-- The extension-split and kind lookup at the tail of `classifyInstaller`
(`src/backend/crawler.js:28-45`), applied to the extracted base name. -/
def classifyFromBase (baseName0 : String) : Classification :=
  match lastDotSplit baseName0 with
  | none => { kind := kindOfExtension "", extension := "", baseName := baseName0 }
  | some (base, ext) =>
    { kind := kindOfExtension ext, extension := ext, baseName := base }

/-- `classifyInstaller`, `src/backend/crawler.js:12-46`.
The input may be `null` (`none`).  `_lower` mirrors the lowercased copy
computed on line 13, which the source never uses.  `parse` is the
`new URL` oracle; on parse failure the `catch` keeps the raw input
(or `'installer'` when the input is null or empty, both falsy in JS). -/
def classifyInstaller (parse : String → Option Url)
    (filenameOrUrl : Option String) : Classification :=
  let _lower := strLower (filenameOrUrl.getD "")
  let baseName0 :=
    match filenameOrUrl with
    | none => "installer"
    | some s =>
      match parse s with
      | none => if s = "" then "installer" else s
      | some u => (((u.pathname.splitOn "/").filter (· ≠ "")).getLast?).getD ""
  classifyFromBase baseName0

/-- `fetchWithRetry`, `src/backend/crawler.js:384-415`, as a loop over
attempt numbers.  `att n` is the outcome of attempt `n`: `.ok body` when
the fetch succeeded with a 2xx response, `.error msg` when the fetch threw
(network error, timeout) or the response was non-ok (the source throws
`HTTP <status>` into the same `catch`, line 400).  The result pairs the
final outcome with the number of the attempt on which the loop stopped;
`none` models the JS loop falling through (returning `undefined`), which
happens only for `retries = 0`. -/
def fetchWithRetryGo (att : Nat → Except String String) (retries : Nat) :
    Nat → Nat → Option (Except String String × Nat)
  | _, 0 => none
  | attempt, fuel + 1 =>
    if retries < attempt then none
    else match att attempt with
      | .ok body => some (.ok body, attempt)
      | .error msg =>
        if attempt = retries then
          some (.error ("Failed after " ++ toString retries ++ " attempts: " ++ msg),
                attempt)
        else fetchWithRetryGo att retries (attempt + 1) fuel

/-- `fetchWithRetry(url, retries = MAX_RETRIES)`: attempts start at 1. -/
def fetchWithRetry (att : Nat → Except String String) (retries : Nat) :
    Option (Except String String × Nat) :=
  fetchWithRetryGo att retries 1 retries

/-- A crawled documentation page, `{ url, content }`
(`src/backend/crawler.js:304-307`). -/
structure DocPage where
  url : String
  content : String
deriving Repr, DecidableEq

/-- `crawlDocumentationPages`, `src/backend/crawler.js:292-350`.
Oracles: `att url n` = outcome of the n-th fetch attempt for `url`
(consumed through `fetchWithRetry` with `MAX_RETRIES = 3`);
`extractText html` = cheerio body text after removing
script/style/nav/footer; `anchors html` = the `(href, link text)` pairs of
the page's `a[href]` elements in document order; `resolve href base` =
`new URL(href, base).toString()` (`none` = throw).
The outer `try/catch` turns a failed main fetch into an empty result;
each documentation link fetch has its own `try/catch` and is skipped on
failure.  Only the first 5 documentation links are fetched. -/
def crawlDocumentationPages (att : String → Nat → Except String String)
    (extractText : String → String)
    (anchors : String → List (String × String))
    (resolve : String → String → Option String)
    (pageUrl : String) : List DocPage :=
  match fetchWithRetry (att pageUrl) 3 with
  | none => []
  | some (.error _, _) => []
  | some (.ok mainHtml, _) =>
    let mainContent := extractText mainHtml
    let firstPage : DocPage := ⟨pageUrl, strTake mainContent 50000⟩
    let visited := [pageUrl]
    let docLinks := (anchors mainHtml).foldl (fun acc hrefText =>
      let text := strLower hrefText.2
      if strIncludes text "doc" || strIncludes text "help"
         || strIncludes text "install" || strIncludes text "deploy"
         || strIncludes text "guide" then
        match resolve hrefText.1 pageUrl with
        | none => acc
        | some fullUrl =>
          if jsStartsWith fullUrl "http" ∧ ¬ visited.contains fullUrl then
            acc ++ [fullUrl]
          else acc
      else acc) []
    let restPages := (docLinks.take 5).foldl (fun acc link =>
      match fetchWithRetry (att link) 3 with
      | some (.ok html, _) => acc ++ [⟨link, strTake (extractText html) 50000⟩]
      | _ => acc) ([] : List DocPage)
    firstPage :: restPages

/-- `extractSilentCommandFromDocs`, `src/backend/crawler.js:355-379`.
The `filename` parameter is accepted but never read by the source.
`matchCmd` is the oracle for the two command regex patterns
(lines 366-369), returning the first match trimmed. -/
def extractSilentCommandFromDocs (matchCmd : String → Option String)
    (_filename docContent : String) : Option String :=
  if docContent = "" then none
  else
    let lower := strLower docContent
    if !(strIncludes lower "silent" || strIncludes lower "quiet"
         || strIncludes lower "unattended") then none
    else matchCmd docContent

/-- JS `baseName.replace(/[-_]/g, ' ')` (`src/backend/crawler.js:159`). -/
def dashUnderscoreToSpace (s : String) : String :=
  ⟨s.data.map (fun c => if c = '-' || c = '_' then ' ' else c)⟩

/-- The `detectionRule` objects built by `crawlAndAnalyze`: MSI note
(`type: 'msi'`), file path (`type: 'file'`), or archive guidance
(`type: 'archive'`); the UNKNOWN branch sets `detectionRule: null`,
modelled as `none` at the use site. -/
inductive AnalysisDetection where
  | msi (note recommendation : String)
  | file (path note : String)
  | archive (note : String)
deriving Repr, DecidableEq

/-- The nested `classification` object of a `crawlAndAnalyze` result. -/
structure ClassificationInfo where
  kind : String
  extension : String
  baseName : String
  displayName : String
deriving Repr, DecidableEq

/-- The nested `confidence` object of a `crawlAndAnalyze` result. -/
structure ConfidenceInfo where
  overall : String
  installCommand : String
  uninstallCommand : String
  detection : String
deriving Repr, DecidableEq

/-- One packaging recommendation as built by `crawlAndAnalyze`.
Fields the source omits on some branches (`notes` on the EXE and UNKNOWN
branches) are modelled as `[]`; the JS `version: null` is `none`. -/
structure Recommendation where
  filename : String
  version : Option String
  installerType : String
  classification : ClassificationInfo
  silentInstallCommand : String
  uninstallCommand : String
  detectionRule : Option AnalysisDetection
  confidence : ConfidenceInfo
  warnings : List String
  sourcePages : List String
  pagesCrawled : Nat
  notes : List String
deriving Repr, DecidableEq

/-- The value `crawlAndAnalyze` resolves to:
`{ success, packaging, pagesCrawled }`. -/
structure AnalysisResult where
  success : Bool
  packaging : List Recommendation
  pagesCrawled : Nat
deriving Repr, DecidableEq

/-- `crawlAndAnalyze`, `src/backend/crawler.js:52-279`.
Additional oracles: `matchCmd` for the command regexes of
`extractSilentCommandFromDocs`, `extVer` for the version regex of
`extractVersion` (line 284-287), and `stripVer` for the
`replace(/\d+\.\d+(\.\d+)?/g, '')` of the EXE app-name guess (line 159).
Every branch returns `success: true` with a single-element `packaging`
array; the EXE branch is the only one that crawls, and
`crawlDocumentationPages` absorbs its failures internally. -/
def crawlAndAnalyze (parse : String → Option Url)
    (att : String → Nat → Except String String)
    (extractText : String → String)
    (anchors : String → List (String × String))
    (resolve : String → String → Option String)
    (matchCmd : String → Option String)
    (extVer : String → Option String)
    (stripVer : String → String)
    (pageUrl _installerUrl : String) (filename : Option String) : AnalysisResult :=
  let c := classifyInstaller parse filename
  let fullFilename := c.baseName ++ c.extension
  if c.kind = "MSI" then
    { success := true
      pagesCrawled := 0
      packaging := [{
        filename := fullFilename
        version := extVer fullFilename
        installerType := "MSI"
        classification := ⟨"MSI", c.extension, c.baseName, "Windows Installer (MSI)"⟩
        silentInstallCommand := "msiexec /i \"" ++ fullFilename ++ "\" /qn /norestart"
        uninstallCommand := "msiexec /x \x7bPRODUCT-CODE-GOES-HERE\x7d /qn /norestart"
        detectionRule := some (.msi
          "MSI installers are typically detected using the MSI ProductCode in deployment tools (Intune, ConfigMgr, etc.). No custom file-based detection is required."
          "Configure detection using the MSI ProductCode from this MSI file.")
        confidence := ⟨"HIGH", "HIGH", "MEDIUM", "N/A"⟩
        warnings := [
          "ProductCode could not be extracted automatically in this environment.",
          "Replace \x7bPRODUCT-CODE-GOES-HERE\x7d with the actual MSI ProductCode.",
          "You can find the ProductCode by opening the MSI in Orca or running: Get-AppLockerFileInformation -Path \"file.msi\" | Select-Object -ExpandProperty Publisher"]
        sourcePages := []
        pagesCrawled := 0
        notes := [
          "MSI installers use the Windows Installer service and follow standardized installation patterns.",
          "The /qn switch provides a fully silent installation with no user interface.",
          "The /norestart switch prevents automatic system restart after installation.",
          "For enterprise deployment, always use the ProductCode for detection and uninstallation."] }] }
  else if c.kind = "EXE" then
    let crawledPages := crawlDocumentationPages att extractText anchors resolve pageUrl
    let docContent := String.intercalate "\n\n" (crawledPages.map (·.content))
    let extracted := extractSilentCommandFromDocs matchCmd fullFilename docContent
    let cmdConfWarn :=
      match extracted with
      | some cmd => (cmd, "HIGH", ([] : List String))
      | none =>
        ("\"" ++ fullFilename ++ "\" /S", "LOW",
         ["No explicit silent install command found in vendor documentation.",
          "Using generic fallback: /S (NSIS/Inno Setup default)",
          "Common alternatives to try: /SILENT, /VERYSILENT, /quiet, /qn"])
    let appName0 := (stripVer (dashUnderscoreToSpace c.baseName)).trim
    let appName := if appName0 = "" then "Application" else appName0
    { success := true
      pagesCrawled := crawledPages.length
      packaging := [{
        filename := fullFilename
        version := extVer fullFilename
        installerType := "EXE"
        classification := ⟨"EXE", c.extension, c.baseName, "Executable Installer"⟩
        silentInstallCommand := cmdConfWarn.1
        uninstallCommand := "Check registry: HKLM\\SOFTWARE\\Microsoft\\Windows\\CurrentVersion\\Uninstall"
        detectionRule := some (.file
          ("%ProgramFiles%\\" ++ appName ++ "\\" ++ appName ++ ".exe")
          "This is a generic detection path. Verify actual installation location after test deployment.")
        confidence := ⟨cmdConfWarn.2.1, cmdConfWarn.2.1, "LOW", "LOW"⟩
        warnings := cmdConfWarn.2.2
        sourcePages := crawledPages.map (·.url)
        pagesCrawled := crawledPages.length
        notes := [] }] }
  else if c.kind = "ARCHIVE" then
    { success := true
      pagesCrawled := 0
      packaging := [{
        filename := fullFilename
        version := none
        installerType := "ARCHIVE"
        classification := ⟨"ARCHIVE", c.extension, c.baseName,
          "Archive (" ++ strUpper c.extension ++ ")"⟩
        silentInstallCommand := "N/A - This is an archive file, not an installer"
        uninstallCommand := "N/A"
        detectionRule := some (.archive
          "This is an archive file. Extract it to find the actual installer or portable application.")
        confidence := ⟨"N/A", "N/A", "N/A", "N/A"⟩
        warnings := []
        sourcePages := []
        pagesCrawled := 0
        notes := [
          "This is an archive file, not a traditional installer.",
          "Possible scenarios: Portable application, contains installer, source code",
          "Extract the archive to examine contents and identify the actual installation method."] }] }
  else
    { success := true
      pagesCrawled := 0
      packaging := [{
        filename := fullFilename
        version := none
        installerType := "UNKNOWN"
        classification := ⟨"UNKNOWN", c.extension, c.baseName, "Unknown"⟩
        silentInstallCommand := "Unable to determine - manual investigation required"
        uninstallCommand := "Unable to determine"
        detectionRule := none
        confidence := ⟨"LOW", "LOW", "LOW", "LOW"⟩
        warnings := [
          "Installer type could not be determined.",
          "Manual investigation required."]
        sourcePages := []
        pagesCrawled := 0
        notes := [] }] }

/-! ## `src/lib/parser.js` -/

/-- Hex digit for the GUID regex `[0-9A-F]` with the `i` flag. -/
def isHexDigit (c : Char) : Bool :=
  c.isDigit || (65 ≤ c.toNat && c.toNat ≤ 70) || (97 ≤ c.toNat && c.toNat ≤ 102)

/-- Consume exactly `n` hex digits. -/
def takeHex : Nat → List Char → Option (List Char × List Char)
  | 0, cs => some ([], cs)
  | _ + 1, [] => none
  | n + 1, c :: rest =>
    if isHexDigit c then (takeHex n rest).map (fun p => (c :: p.1, p.2)) else none

/-- Consume one expected character. -/
def expectChar (c : Char) : List Char → Option (List Char)
  | x :: rest => if x = c then some rest else none
  | [] => none

/-- Match the GUID pattern `\x7b[0-9A-F]{8}-...-[0-9A-F]{12}\x7d` (case
insensitive) at the start of the character list, returning the matched
text. -/
def guidAt (cs : List Char) : Option (List Char) :=
  (expectChar '{' cs).bind fun r0 =>
  (takeHex 8 r0).bind fun p1 =>
  (expectChar '-' p1.2).bind fun r1 =>
  (takeHex 4 r1).bind fun p2 =>
  (expectChar '-' p2.2).bind fun r2 =>
  (takeHex 4 r2).bind fun p3 =>
  (expectChar '-' p3.2).bind fun r3 =>
  (takeHex 4 r3).bind fun p4 =>
  (expectChar '-' p4.2).bind fun r4 =>
  (takeHex 12 r4).bind fun p5 =>
  (expectChar '}' p5.2).map fun _ =>
    '{' :: (p1.1 ++ '-' :: p2.1 ++ '-' :: p3.1 ++ '-' :: p4.1 ++ '-' :: p5.1 ++ ['}'])

/-- First GUID match scanning left to right. -/
def extractGuidList : List Char → Option (List Char)
  | [] => none
  | c :: rest =>
    match guidAt (c :: rest) with
    | some g => some g
    | none => extractGuidList rest

/-- `extractGuid`, `src/lib/parser.js:435-439`: first match of the
canonical GUID regex in the text, `none` when there is no match. -/
def extractGuid (s : String) : Option String :=
  (extractGuidList s.data).map (fun cs => ⟨cs⟩)

/-- An installer record as produced by `extractInstallers`
(`src/lib/parser.js:37-43`). -/
structure PInstaller where
  url : String
  filename : String
  type : String
  sourcePages : List String
  version : Option String
deriving Repr, DecidableEq

/-- A command record as produced by `parseCommand`
(`src/lib/parser.js:171-178`). -/
structure PCommand where
  raw : String
  type : String
  pageUrl : String
  inferredRole : String
  switches : List String
  possiblePaths : List String
deriving Repr, DecidableEq

/-- A page consumed by `src/lib/parser.js`: `{ url, html, textContent }`. -/
structure PPage where
  url : String
  html : String
  textContent : String
deriving Repr, DecidableEq

/-- The detection-rule objects built by `inferDetectionRules`: a file rule
(strategy 1 carries no `heuristic` field, modelled `heuristic := false`;
strategy 3 sets `heuristic: true`) or a registry rule (strategy 2). -/
inductive PDetectionRule where
  | file (path : String) (detectionType : String) (heuristic : Bool)
  | registry (hive keyPath detectionType : String)
deriving Repr, DecidableEq

/-- One element of the `detectionCandidates` array
(`src/lib/parser.js:292-298`). -/
structure DetectionCandidate where
  installerUrl : String
  detectionRule : Option PDetectionRule
  confidence : String
  sourcePages : List String
  notes : List String
deriving Repr, DecidableEq

/-- The per-installer body of `inferDetectionRules`
(`src/lib/parser.js:222-299`).  `findExe` is the oracle for
`findExeInPath` (lines 421-433) and `guessApp` for `guessAppName`
(lines 441-465), both JS regex/DOM helpers whose exact output no claim
depends on.  Strategy 1 takes the first related command with a non-empty
`possiblePaths`; strategy 2 (MSI only) the first uninstall-role command
containing a GUID; strategy 3 is the heuristic fallback. -/
def detCandidateFor (findExe : String → String → String)
    (guessApp : String → List PPage → String)
    (commands : List PCommand) (pages : List PPage)
    (installer : PInstaller) : DetectionCandidate :=
  let relatedCommands := commands.filter (fun cmd =>
    strIncludes (strLower cmd.raw) (strLower installer.filename)
    || cmd.type == installer.type)
  let fallback : DetectionCandidate :=
    let appName := guessApp installer.filename pages
    { installerUrl := installer.url
      detectionRule := some (.file
        ("C:\\Program Files\\" ++ appName ++ "\\" ++ appName ++ ".exe") "exists" true)
      confidence := "low"
      sourcePages := installer.sourcePages
      notes := ["⚠️ Heuristic detection rule - verify actual install path"] }
  match relatedCommands.find? (fun cmd => decide (0 < cmd.possiblePaths.length)) with
  | some cmd =>
    { installerUrl := installer.url
      detectionRule := some (.file
        (findExe (cmd.possiblePaths.head?.getD "") installer.filename) "exists" false)
      confidence := "high"
      sourcePages :=
        if installer.sourcePages.contains cmd.pageUrl then installer.sourcePages
        else installer.sourcePages ++ [cmd.pageUrl]
      notes := ["Path found in official documentation"] }
  | none =>
    if installer.type == "msi" then
      match commands.find? (fun cmd =>
          cmd.inferredRole == "uninstall" && (extractGuid cmd.raw).isSome) with
      | some cmd =>
        let guid := (extractGuid cmd.raw).getD ""
        { installerUrl := installer.url
          detectionRule := some (.registry "HKLM"
            ("SOFTWARE\\Microsoft\\Windows\\CurrentVersion\\Uninstall\\" ++ guid)
            "exists")
          confidence := "high"
          sourcePages :=
            if installer.sourcePages.contains cmd.pageUrl then installer.sourcePages
            else installer.sourcePages ++ [cmd.pageUrl]
          notes := ["ProductCode found in uninstall documentation"] }
      | none => fallback
    else fallback

/-- `inferDetectionRules`, `src/lib/parser.js:219-302`: one detection
candidate per installer, in order. -/
def inferDetectionRules (findExe : String → String → String)
    (guessApp : String → List PPage → String)
    (installers : List PInstaller) (commands : List PCommand)
    (pages : List PPage) : List DetectionCandidate :=
  installers.map (detCandidateFor findExe guessApp commands pages)

/-- Silent-switch tokens checked for the install command
(`src/lib/parser.js:338`). -/
def silentSwitchList : List String := ["/qn", "/quiet", "/silent", "/s", "/verysilent"]

/-- Silent-switch tokens checked for the uninstall command
(`src/lib/parser.js:359`). -/
def uninstallSwitchList : List String := ["/qn", "/quiet", "/silent", "/s"]

/-- One element of the `packaging` array built by `buildPackagingResult`
(`src/lib/parser.js:374-386`).  `silentInstallCommand` and
`uninstallCommand` start as JS `null` (`none`). -/
structure PackagingEntry where
  installer : PInstaller
  silentInstallCommand : Option String
  uninstallCommand : Option String
  detectionRule : Option PDetectionRule
  otherCommands : List String
  warnings : List String
  sourcePages : List String
  confidence : String
deriving Repr, DecidableEq

/-- The per-installer body of the `installers.map` inside
`buildPackagingResult` (`src/lib/parser.js:319-387`).  `detection` is the
detection candidate at the same index, i.e.
`detCandidateFor ... installer`. -/
def packagingEntryFor (commands : List PCommand) (installer : PInstaller)
    (detection : DetectionCandidate) : PackagingEntry :=
  let installCommands := commands.filter (fun c =>
    c.inferredRole == "install"
    && (strIncludes (strLower c.raw) (strLower installer.filename)
        || c.type == installer.type))
  let uninstallCommands := commands.filter (fun c =>
    c.inferredRole == "uninstall"
    && (strIncludes (strLower c.raw) (strLower installer.filename)
        || c.type == installer.type))
  let silentInstall := installCommands.find? (fun c =>
    c.switches.any (fun s => silentSwitchList.contains (strLower s)))
  let installSel : Option String × List String :=
    match silentInstall with
    | some c => (some c.raw, [])
    | none =>
      match installCommands with
      | c :: _ => (some c.raw, ["⚠️ Command found but silent switches not confirmed"])
      | [] =>
        (some (if installer.type == "msi"
               then "msiexec /i \"" ++ installer.filename ++ "\" /qn /norestart"
               else "\"" ++ installer.filename ++ "\" /S"),
         ["⚠️ Using heuristic fallback command - verify with vendor documentation"])
  let bestUninstall := uninstallCommands.find? (fun c =>
    c.switches.any (fun s => uninstallSwitchList.contains (strLower s)))
  let uninstallSel : Option String × List String :=
    match bestUninstall with
    | some c => (some c.raw, [])
    | none =>
      if installer.type == "msi" then
        match extractGuid (((uninstallCommands.head?).map (·.raw)).getD "") with
        | some guid => (some ("msiexec /x " ++ guid ++ " /qn /norestart"), [])
        | none =>
          (some ("msiexec /x \"" ++ installer.filename ++ "\" /qn /norestart"),
           ["⚠️ MSI uninstall: ProductCode not found, using filename"])
      else (none, [])
  { installer := installer
    silentInstallCommand := installSel.1
    uninstallCommand := uninstallSel.1
    detectionRule := detection.detectionRule
    otherCommands :=
      (installCommands.map (·.raw) ++ uninstallCommands.map (·.raw)).filter
        (fun c => ¬ installSel.1 = some c ∧ ¬ uninstallSel.1 = some c)
    warnings := installSel.2 ++ uninstallSel.2 ++ detection.notes
    sourcePages := detection.sourcePages
    confidence := detection.confidence }

/-- The full result object of `buildPackagingResult`
(`src/lib/parser.js:389-394`). -/
structure PackagingResult where
  installers : List PInstaller
  packaging : List PackagingEntry
  commandsFound : Nat
  pagesAnalyzed : Nat
deriving Repr, DecidableEq

/-- `buildPackagingResult`, `src/lib/parser.js:307-395`.  `extractInst`
and `extractCmds` are oracles for the JSDOM-based `extractInstallers` and
`extractCommandsFromDocs`.  The source pairs `installers[index]` with
`detectionCandidates[index]`; since `inferDetectionRules` maps over the
same `installers` list, that pairing is per-installer application. -/
def buildPackagingResult (extractInst : List PPage → List PInstaller)
    (extractCmds : List PPage → List PCommand)
    (findExe : String → String → String)
    (guessApp : String → List PPage → String)
    (pages : List PPage) : PackagingResult :=
  let installers := extractInst pages
  let commands := extractCmds pages
  { installers := installers
    packaging := installers.map (fun installer =>
      packagingEntryFor commands installer
        (detCandidateFor findExe guessApp commands pages installer))
    commandsFound := commands.length
    pagesAnalyzed := pages.length }

/-! ## Helper lemmas about the crawl loop and the classifier -/

theorem enqueueLinks_mem (visited : List String) (maxPages : Nat) :
    ∀ links toVisit : List String, ∀ u : String,
      u ∈ enqueueLinks visited maxPages toVisit links →
        u ∈ toVisit ∨ u ∈ links := by
  intro links
  induction links with
  | nil => intro toVisit u hu; exact Or.inl (by simpa [enqueueLinks] using hu)
  | cons l ls ih =>
    intro toVisit u hu
    simp only [enqueueLinks, List.foldl_cons] at hu
    rcases ih _ u hu with h | h
    · by_cases hc : ¬ visited.contains l ∧ toVisit.length < maxPages
      · rw [if_pos hc] at h
        rcases List.mem_append.mp h with h | h
        · exact Or.inl h
        · exact Or.inr (by rw [List.mem_singleton.mp h]; exact List.mem_cons_self l ls)
      · exact Or.inl (by rwa [if_neg hc] at h)
    · exact Or.inr (List.mem_cons_of_mem _ h)

theorem shallowCrawlAux_le (parse : String → Option Url) (net : String → Option Response)
    (linksOf : String → String → List String) (maxPages : Nat) :
    ∀ (visited toVisit : List String) (pages : List CrawledPage),
      pages.length ≤ maxPages →
      ∀ ps, shallowCrawlAux parse net linksOf maxPages visited toVisit pages = .ok ps →
      ps.length ≤ maxPages := by
  intro visited toVisit pages
  induction visited, toVisit, pages using shallowCrawlAux.induct parse net linksOf maxPages with
  | case1 visited pages =>
    intro hle ps hok
    simp only [shallowCrawlAux] at hok; cases hok; exact hle
  | case2 visited pages url rest hbudget =>
    intro hle ps hok
    rw [shallowCrawlAux] at hok
    simp only [if_pos hbudget] at hok
    cases hok; exact hle
  | case3 visited pages url rest hbudget hvis ih =>
    intro hle ps hok
    rw [shallowCrawlAux] at hok
    simp only [if_neg hbudget, if_pos hvis] at hok
    exact ih hle ps hok
  | case4 visited pages url rest hbudget hvis e heq =>
    intro hle ps hok
    rw [shallowCrawlAux] at hok
    simp only [if_neg hbudget, if_neg hvis, heq] at hok
    cases hok
  | case5 visited pages url rest hbudget hvis heq ih =>
    intro hle ps hok
    rw [shallowCrawlAux] at hok
    simp only [if_neg hbudget, if_neg hvis, heq] at hok
    exact ih hle ps hok
  | case6 visited pages url rest hbudget hvis html heq hpz ih =>
    intro hle ps hok
    rw [shallowCrawlAux] at hok
    simp only [if_neg hbudget, if_neg hvis, heq, dif_pos hpz] at hok
    refine ih ?_ ps hok
    simp only [List.length_append, List.length_singleton]
    omega
  | case7 visited pages url rest hbudget hvis html heq hpz ih =>
    intro hle ps hok
    rw [shallowCrawlAux] at hok
    simp only [if_neg hbudget, if_neg hvis, heq, dif_neg hpz] at hok
    refine ih ?_ ps hok
    simp only [List.length_append, List.length_singleton]
    omega

theorem shallowCrawlAux_prefix (parse : String → Option Url) (net : String → Option Response)
    (linksOf : String → String → List String) (maxPages : Nat) :
    ∀ (visited toVisit : List String) (pages : List CrawledPage),
      ∀ ps, shallowCrawlAux parse net linksOf maxPages visited toVisit pages = .ok ps →
      pages <+: ps := by
  intro visited toVisit pages
  induction visited, toVisit, pages using shallowCrawlAux.induct parse net linksOf maxPages with
  | case1 visited pages =>
    intro ps hok
    simp only [shallowCrawlAux] at hok; cases hok; exact List.prefix_refl _
  | case2 visited pages url rest hbudget =>
    intro ps hok
    rw [shallowCrawlAux] at hok
    simp only [if_pos hbudget] at hok
    cases hok; exact List.prefix_refl _
  | case3 visited pages url rest hbudget hvis ih =>
    intro ps hok
    rw [shallowCrawlAux] at hok
    simp only [if_neg hbudget, if_pos hvis] at hok
    exact ih ps hok
  | case4 visited pages url rest hbudget hvis e heq =>
    intro ps hok
    rw [shallowCrawlAux] at hok
    simp only [if_neg hbudget, if_neg hvis, heq] at hok
    cases hok
  | case5 visited pages url rest hbudget hvis heq ih =>
    intro ps hok
    rw [shallowCrawlAux] at hok
    simp only [if_neg hbudget, if_neg hvis, heq] at hok
    exact ih ps hok
  | case6 visited pages url rest hbudget hvis html heq hpz ih =>
    intro ps hok
    rw [shallowCrawlAux] at hok
    simp only [if_neg hbudget, if_neg hvis, heq, dif_pos hpz] at hok
    exact List.IsPrefix.trans (List.prefix_append _ _) (ih ps hok)
  | case7 visited pages url rest hbudget hvis html heq hpz ih =>
    intro ps hok
    rw [shallowCrawlAux] at hok
    simp only [if_neg hbudget, if_neg hvis, heq, dif_neg hpz] at hok
    exact List.IsPrefix.trans (List.prefix_append _ _) (ih ps hok)

theorem shallowCrawlAux_mem (parse : String → Option Url) (net : String → Option Response)
    (linksOf : String → String → List String) (maxPages : Nat) :
    ∀ (visited toVisit : List String) (pages : List CrawledPage),
      pages ≠ [] →
      ∀ ps, shallowCrawlAux parse net linksOf maxPages visited toVisit pages = .ok ps →
      ∀ p ∈ ps, p ∈ pages ∨ p.url ∈ toVisit := by
  intro visited toVisit pages
  induction visited, toVisit, pages using shallowCrawlAux.induct parse net linksOf maxPages with
  | case1 visited pages =>
    intro _ ps hok p hp
    simp only [shallowCrawlAux] at hok; cases hok; exact Or.inl hp
  | case2 visited pages url rest hbudget =>
    intro _ ps hok p hp
    rw [shallowCrawlAux] at hok
    simp only [if_pos hbudget] at hok
    cases hok; exact Or.inl hp
  | case3 visited pages url rest hbudget hvis ih =>
    intro hne ps hok p hp
    rw [shallowCrawlAux] at hok
    simp only [if_neg hbudget, if_pos hvis] at hok
    rcases ih hne ps hok p hp with h | h
    · exact Or.inl h
    · exact Or.inr (List.mem_cons_of_mem _ h)
  | case4 visited pages url rest hbudget hvis e heq =>
    intro _ ps hok
    rw [shallowCrawlAux] at hok
    simp only [if_neg hbudget, if_neg hvis, heq] at hok
    cases hok
  | case5 visited pages url rest hbudget hvis heq ih =>
    intro hne ps hok p hp
    rw [shallowCrawlAux] at hok
    simp only [if_neg hbudget, if_neg hvis, heq] at hok
    rcases ih hne ps hok p hp with h | h
    · exact Or.inl h
    · exact Or.inr (List.mem_cons_of_mem _ h)
  | case6 visited pages url rest hbudget hvis html heq hpz _ih =>
    intro hne _ _ _ _
    exact absurd (List.length_eq_zero.mp hpz) hne
  | case7 visited pages url rest hbudget hvis html heq hpz ih =>
    intro _ ps hok p hp
    rw [shallowCrawlAux] at hok
    simp only [if_neg hbudget, if_neg hvis, heq, dif_neg hpz] at hok
    rcases ih (by simp) ps hok p hp with h | h
    · rcases List.mem_append.mp h with h2 | h2
      · exact Or.inl h2
      · have : p = CrawledPage.mk url html := List.mem_singleton.mp h2
        exact Or.inr (by rw [this]; exact List.mem_cons_self _ _)
    · exact Or.inr (List.mem_cons_of_mem _ h)

theorem shallowCrawlAux_first (parse : String → Option Url) (net : String → Option Response)
    (linksOf : String → String → List String) (maxPages : Nat) :
    ∀ (visited toVisit : List String) (pages : List CrawledPage),
      pages = [] →
      ∀ ps, shallowCrawlAux parse net linksOf maxPages visited toVisit pages = .ok ps →
      ps = [] ∨ ∃ u h tail, ps = CrawledPage.mk u h :: tail ∧ u ∈ toVisit ∧
        ∀ p ∈ tail, p.url ∈ toVisit ∨ p.url ∈ linksOf h u := by
  intro visited toVisit pages
  induction visited, toVisit, pages using shallowCrawlAux.induct parse net linksOf maxPages with
  | case1 visited pages =>
    intro hemp ps hok
    simp only [shallowCrawlAux] at hok; cases hok; exact Or.inl hemp
  | case2 visited pages url rest hbudget =>
    intro hemp ps hok
    rw [shallowCrawlAux] at hok
    simp only [if_pos hbudget] at hok
    cases hok; exact Or.inl hemp
  | case3 visited pages url rest hbudget hvis ih =>
    intro hemp ps hok
    rw [shallowCrawlAux] at hok
    simp only [if_neg hbudget, if_pos hvis] at hok
    rcases ih hemp ps hok with h | ⟨u, hh, tail, hps, hu, htail⟩
    · exact Or.inl h
    · refine Or.inr ⟨u, hh, tail, hps, List.mem_cons_of_mem _ hu, fun p hp => ?_⟩
      rcases htail p hp with h2 | h2
      · exact Or.inl (List.mem_cons_of_mem _ h2)
      · exact Or.inr h2
  | case4 visited pages url rest hbudget hvis e heq =>
    intro _ ps hok
    rw [shallowCrawlAux] at hok
    simp only [if_neg hbudget, if_neg hvis, heq] at hok
    cases hok
  | case5 visited pages url rest hbudget hvis heq ih =>
    intro hemp ps hok
    rw [shallowCrawlAux] at hok
    simp only [if_neg hbudget, if_neg hvis, heq] at hok
    rcases ih hemp ps hok with h | ⟨u, hh, tail, hps, hu, htail⟩
    · exact Or.inl h
    · refine Or.inr ⟨u, hh, tail, hps, List.mem_cons_of_mem _ hu, fun p hp => ?_⟩
      rcases htail p hp with h2 | h2
      · exact Or.inl (List.mem_cons_of_mem _ h2)
      · exact Or.inr h2
  | case6 visited pages url rest hbudget hvis html heq hpz _ih =>
    intro hemp ps hok
    rw [shallowCrawlAux] at hok
    simp only [if_neg hbudget, if_neg hvis, heq, dif_pos hpz] at hok
    subst hemp
    simp only [List.nil_append] at hok
    have hpre := shallowCrawlAux_prefix parse net linksOf maxPages _ _ _ ps hok
    obtain ⟨tail, htaileq⟩ := hpre
    have hmem := shallowCrawlAux_mem parse net linksOf maxPages _ _ _ (by simp) ps hok
    refine Or.inr ⟨url, html, tail, htaileq.symm, List.mem_cons_self _ _, fun p hp => ?_⟩
    have hpps : p ∈ ps := by
      rw [← htaileq]; exact List.mem_cons_of_mem _ hp
    rcases hmem p hpps with h2 | h2
    · have : p = CrawledPage.mk url html := List.mem_singleton.mp h2
      exact Or.inl (by rw [this]; exact List.mem_cons_self _ _)
    · rcases enqueueLinks_mem _ _ _ _ _ h2 with h3 | h3
      · exact Or.inl (List.mem_cons_of_mem _ h3)
      · exact Or.inr h3
  | case7 visited pages url rest hbudget hvis html heq hpz _ih =>
    intro hemp _ _
    exact absurd (by rw [hemp]; rfl) hpz

theorem classifyFromBase_kind (b : String) :
    (classifyFromBase b).kind = kindOfExtension (classifyFromBase b).extension := by
  unfold classifyFromBase
  split <;> rfl

theorem classifyInstaller_kind_eq (parse : String → Option Url) (fn : Option String) :
    (classifyInstaller parse fn).kind
      = kindOfExtension (classifyInstaller parse fn).extension := by
  unfold classifyInstaller
  exact classifyFromBase_kind _

/-! ## Claim C1 — URL Safety Validator -/

/-- C1 counterexample: the claim requires `validate` to reject every
hostname that equals or starts with `169.254.`, but `validateUrl`
(`src/backend/lib/crawler.js`) has no `169.254.` entry in `blockedHosts`
and accepts the link-local address `169.254.169.254` over `http:`. -/
theorem validateUrl_allows_link_local_cex :
    validateUrl (some ⟨"http:", "169.254.169.254", "/latest/meta-data"⟩) = true
    ∧ jsStartsWith (strLower "169.254.169.254") "169.254." = true := by decide

/-- C1 (amended): for every parse result, `validateUrl` returns `true`
exactly when parsing succeeded, the scheme is exactly `http:` or `https:`
(so `file:`, `ftp:`, `data:`, `javascript:`, `smb:` are rejected), and the
lowercased hostname neither equals nor starts with any entry of the
blocked list `localhost`, `127.0.0.1`, `0.0.0.0`, `::1`, `10.`,
`172.16.` through `172.31.`, `192.168.` — without `169.254.`, which the
claim wrongly includes. -/
theorem validateUrl_spec_amended (p : Option Url) :
    validateUrl p = true ↔
      ∃ u, p = some u ∧ (u.protocol = "http:" ∨ u.protocol = "https:") ∧
        ∀ b ∈ blockedHosts,
          strLower u.hostname ≠ b ∧ jsStartsWith (strLower u.hostname) b = false := by
  cases p with
  | none => simp [validateUrl]
  | some u =>
    simp only [validateUrl]
    by_cases hbp : blockedProtocols.contains u.protocol
    · rw [if_pos hbp]
      constructor
      · intro h; cases h
      · rintro ⟨u2, hu2, hproto, _⟩
        injection hu2 with h2; subst h2
        rcases hproto with h | h <;> rw [h] at hbp <;> simp [blockedProtocols] at hbp
    · rw [if_neg hbp]
      cases hhp : (["http:", "https:"].contains u.protocol) with
      | false =>
        simp only [hhp, Bool.not_false, if_true]
        constructor
        · intro h; cases h
        · rintro ⟨u2, hu2, hproto, _⟩
          injection hu2 with h2; subst h2
          rcases hproto with h | h <;> rw [h] at hhp <;> simp at hhp
      | true =>
        simp only [hhp, Bool.not_true, Bool.false_eq_true, if_false]
        cases hany : blockedHosts.any (fun blocked =>
            strLower u.hostname == blocked || jsStartsWith (strLower u.hostname) blocked) with
        | true =>
          simp only [hany, if_true]
          constructor
          · intro h; cases h
          · rintro ⟨u2, hu2, _, hforall⟩
            injection hu2 with h2; subst h2
            obtain ⟨b, hb, hfb⟩ := List.any_eq_true.mp hany
            rcases hforall b hb with ⟨hne, hsw⟩
            have hfb2 : strLower u.hostname = b
                ∨ jsStartsWith (strLower u.hostname) b = true := by
              simpa using hfb
            rcases hfb2 with h3 | h3
            · exact (hne h3).elim
            · rw [hsw] at h3; cases h3
        | false =>
          simp only [hany, Bool.false_eq_true, if_false, true_iff]
          refine ⟨u, rfl, ?_, ?_⟩
          · have hmem : u.protocol ∈ ["http:", "https:"] := by
              simpa using hhp
            simpa using hmem
          · intro b hb
            have hall := List.any_eq_false.mp hany b hb
            constructor
            · intro hEq
              apply hall
              simp [hEq]
            · have hall2 : ¬ strLower u.hostname = b
                  ∧ jsStartsWith (strLower u.hostname) b = false := by
                simpa [not_or] using hall
              exact hall2.2

/-- C1 witness: the amended characterization applied to a concrete safe
URL, `https://vendor.example/download`. -/
theorem validateUrl_spec_amended_witness :
    validateUrl (some ⟨"https:", "vendor.example", "/download"⟩) = true :=
  (validateUrl_spec_amended (some ⟨"https:", "vendor.example", "/download"⟩)).mpr
    ⟨⟨"https:", "vendor.example", "/download"⟩, rfl, Or.inr rfl, by decide⟩

/-! ## Claim C2 — Page Fetcher returns null on failures -/

/-- C2 counterexample: the claim requires `fetchPage` to return `null`
(never raise) for every URL, including malformed/unsafe ones; but on an
unsafe URL (`ftp:` scheme) `fetchPage` throws `Invalid or unsafe URL`
(`src/backend/lib/crawler.js:82`). -/
theorem fetchPage_throws_on_unsafe_cex :
    fetchPage (fun _ => some ⟨"ftp:", "example.com", "/pub/file"⟩) (fun _ => none)
      "ftp://example.com/pub/file" = .error "Invalid or unsafe URL" := by decide

/-- C2 (amended): `fetchPage` raises exactly when the URL fails safety
validation; for URLs that pass validation it never raises, and each
failure path returns `null` (`.ok none`): a thrown fetch or timeout
(`net url = none`), a non-2xx response (`r.ok = false`), and a non-HTML
content type (neither `text/html` nor `application/xhtml` occurs in it). -/
theorem fetchPage_null_only_after_validation (parse : String → Option Url)
    (net : String → Option Response) (url : String) :
    ((∃ msg, fetchPage parse net url = .error msg) ↔ validateUrl (parse url) = false)
    ∧ (validateUrl (parse url) = true → net url = none →
        fetchPage parse net url = .ok none)
    ∧ (validateUrl (parse url) = true →
        ∀ r, net url = some r → r.ok = false → fetchPage parse net url = .ok none)
    ∧ (validateUrl (parse url) = true →
        ∀ r, net url = some r →
          strIncludes r.contentType "text/html" = false →
          strIncludes r.contentType "application/xhtml" = false →
          fetchPage parse net url = .ok none) := by
  unfold fetchPage
  cases hv : validateUrl (parse url) with
  | false =>
    simp only [hv, Bool.not_false, if_true]
    refine ⟨⟨fun _ => trivial, fun _ => ⟨_, rfl⟩⟩, ?_, ?_, ?_⟩
    · intro h; cases h
    · intro h; cases h
    · intro h; cases h
  | true =>
    simp only [hv, Bool.not_true, Bool.false_eq_true, if_false]
    refine ⟨⟨?_, ?_⟩, ?_, ?_, ?_⟩
    · rintro ⟨msg, hmsg⟩; cases hmsg
    · intro h; cases h
    · intro _ hn
      rw [hn]
    · intro _ r hr hok
      rw [hr]
      simp [hok]
    · intro _ r hr h1 h2
      rw [hr]
      cases hro : r.ok <;> simp [h1, h2, hro]

/-- C2 witness: three safe URLs — one whose fetch throws or times out
(`net = none`), one answered with HTTP 404 (`ok = false`), and one
answered with a PDF content type — all make `fetchPage` return `null`
rather than raise. -/
theorem fetchPage_null_only_after_validation_witness :
    fetchPage (fun _ => some ⟨"https:", "vendor.example", "/down"⟩) (fun _ => none)
      "https://vendor.example/down" = .ok none
    ∧ fetchPage (fun _ => some ⟨"https:", "vendor.example", "/missing"⟩)
        (fun _ => some ⟨false, "text/html", "Not Found"⟩)
        "https://vendor.example/missing" = .ok none
    ∧ fetchPage (fun _ => some ⟨"https:", "vendor.example", "/file.pdf"⟩)
        (fun _ => some ⟨true, "application/pdf", "%PDF-1.7"⟩)
        "https://vendor.example/file.pdf" = .ok none :=
  ⟨(fetchPage_null_only_after_validation
      (fun _ => some ⟨"https:", "vendor.example", "/down"⟩) (fun _ => none)
      "https://vendor.example/down").2.1 (by decide) rfl,
   (fetchPage_null_only_after_validation
      (fun _ => some ⟨"https:", "vendor.example", "/missing"⟩)
      (fun _ => some ⟨false, "text/html", "Not Found"⟩)
      "https://vendor.example/missing").2.2.1
     (by decide) ⟨false, "text/html", "Not Found"⟩ rfl rfl,
   (fetchPage_null_only_after_validation
      (fun _ => some ⟨"https:", "vendor.example", "/file.pdf"⟩)
      (fun _ => some ⟨true, "application/pdf", "%PDF-1.7"⟩)
      "https://vendor.example/file.pdf").2.2.2
     (by decide) ⟨true, "application/pdf", "%PDF-1.7"⟩ rfl (by decide) (by decide)⟩

/-! ## Claim C3 — retry policy of the fetcher -/

/-- C3 counterexample: the claim says an HTTP 4xx/5xx response is terminal
(one attempt, then `null`); but `fetchWithRetry`
(`src/backend/crawler.js:384-415`) throws `HTTP <status>` into its own
retry `catch`, so three attempts against a server answering HTTP 500 all
retry, and the function finally throws instead of returning `null`. -/
theorem fetchWithRetry_retries_http_errors_cex :
    fetchWithRetry (fun _ => .error "HTTP 500") 3
      = some (.error "Failed after 3 attempts: HTTP 500", 3) := by decide

/-- C3 (amended): `fetchWithRetry` retries up to 3 attempts with backoff
on every failure — transient network errors and HTTP 4xx/5xx alike — and
after the third failure throws (propagates an error) rather than
returning `null`; a first-attempt success stops after exactly one
attempt.  (The `fetchPage` variant of `src/backend/lib/crawler.js`
performs no retries at all and returns `null` on any failure.) -/
theorem fetchWithRetry_retry_policy (att : Nat → Except String String) :
    (∀ msg1 msg2 msg3, att 1 = .error msg1 → att 2 = .error msg2 → att 3 = .error msg3 →
        fetchWithRetry att 3
          = some (.error ("Failed after 3 attempts: " ++ msg3), 3))
    ∧ (∀ body, att 1 = .ok body → fetchWithRetry att 3 = some (.ok body, 1)) := by
  constructor
  · intro m1 m2 m3 h1 h2 h3
    simp [fetchWithRetry, fetchWithRetryGo, h1, h2, h3]
    rw [show ("Failed after " ++ toString (3 : Nat) ++ " attempts: ")
          = "Failed after 3 attempts: " from by decide]
  · intro b h1
    simp [fetchWithRetry, fetchWithRetryGo, h1]

/-- C3 witness: all three attempts answered HTTP 503 — the retry loop
performs all of them and throws. -/
theorem fetchWithRetry_retry_policy_witness :
    fetchWithRetry (fun _ => .error "HTTP 503") 3
      = some (.error ("Failed after 3 attempts: " ++ "HTTP 503"), 3) :=
  (fetchWithRetry_retry_policy (fun _ => .error "HTTP 503")).1
    "HTTP 503" "HTTP 503" "HTTP 503" rfl rfl rfl

/-! ## Claim C4 — crawl termination and page budget -/

/-- C4: for every start URL, page budget, and link graph (any `linksOf`
oracle, cyclic graphs included), `shallowCrawl` collects at most
`maxPages` pages.  Termination in finitely many steps is established by
the well-founded recursion of `shallowCrawlAux` itself (measure: queue
length plus a one-shot expansion credit), which this theorem inherits. -/
theorem shallowCrawl_terminates_within_budget (parse : String → Option Url)
    (net : String → Option Response) (linksOf : String → String → List String)
    (startUrl : String) (maxPages : Nat) (ps : List CrawledPage)
    (h : shallowCrawl parse net linksOf startUrl maxPages = .ok ps) :
    ps.length ≤ maxPages :=
  shallowCrawlAux_le parse net linksOf maxPages [] [startUrl] [] (by simp) ps h

/-- C4 witness: the spec's two-page mutual-link fixture — `/install` and
`/deploy` link to each other — with budget 5: the crawl terminates with
exactly the two pages, within budget. -/
theorem shallowCrawl_terminates_within_budget_witness :
    shallowCrawl (fun _ => some ⟨"https:", "vendor.example", "/"⟩)
      (fun _ => some ⟨true, "text/html", "<html>"⟩)
      (fun _ url => if url = "https://vendor.example/install"
                    then ["https://vendor.example/deploy"]
                    else ["https://vendor.example/install"])
      "https://vendor.example/install" 5
      = .ok [⟨"https://vendor.example/install", "<html>"⟩,
             ⟨"https://vendor.example/deploy", "<html>"⟩]
    ∧ ([⟨"https://vendor.example/install", "<html>"⟩,
        ⟨"https://vendor.example/deploy", "<html>"⟩] : List CrawledPage).length ≤ 5 :=
  ⟨by simp [shallowCrawl, shallowCrawlAux, fetchPage, validateUrl, enqueueLinks,
      strLower, jsStartsWith, listPrefixB, strIncludes, listInfixB,
      blockedProtocols, blockedHosts],
   shallowCrawl_terminates_within_budget
      (fun _ => some ⟨"https:", "vendor.example", "/"⟩)
      (fun _ => some ⟨true, "text/html", "<html>"⟩)
      (fun _ url => if url = "https://vendor.example/install"
                    then ["https://vendor.example/deploy"]
                    else ["https://vendor.example/install"])
      "https://vendor.example/install" 5 _
      (by simp [shallowCrawl, shallowCrawlAux, fetchPage, validateUrl, enqueueLinks,
        strLower, jsStartsWith, listPrefixB, strIncludes, listInfixB,
        blockedProtocols, blockedHosts])⟩

/-! ## Claim C5 — link discovery during the crawl -/

/-- C5 counterexample: a chain `/docs → /install → /deploy` with budget 3.
The claim requires the Discoverer to run on every fetched page while the
budget lasts, which would enqueue and crawl `/deploy`; but `shallowCrawl`
extracts links only from the first page (`crawledPages.length === 1`,
`src/backend/lib/crawler.js:207`), so the crawl stops after two pages even
though `/deploy` was discoverable on the freshly fetched second page. -/
theorem shallowCrawl_no_discovery_after_first_cex :
    shallowCrawl (fun _ => some ⟨"https:", "vendor.example", "/"⟩)
      (fun _ => some ⟨true, "text/html", "<html>"⟩)
      (fun _ url => if url = "https://vendor.example/docs"
                    then ["https://vendor.example/install"]
                    else if url = "https://vendor.example/install"
                    then ["https://vendor.example/deploy"]
                    else [])
      "https://vendor.example/docs" 3
      = .ok [⟨"https://vendor.example/docs", "<html>"⟩,
             ⟨"https://vendor.example/install", "<html>"⟩]
    ∧ (fun (_ : String) url => if url = "https://vendor.example/docs"
                    then ["https://vendor.example/install"]
                    else if url = "https://vendor.example/install"
                    then ["https://vendor.example/deploy"]
                    else []) "<html>" "https://vendor.example/install"
        = ["https://vendor.example/deploy"] := by
  constructor
  · simp [shallowCrawl, shallowCrawlAux, fetchPage, validateUrl, enqueueLinks,
      strLower, jsStartsWith, listPrefixB, strIncludes, listInfixB,
      blockedProtocols, blockedHosts]
  · decide

/-- C5 (amended): the Crawl Scheduler invokes the Link Discoverer only on
the first successfully fetched page; every later page in the result is
either the start URL's page or one of the first page's links — pages
fetched later never have their links enqueued, even when the budget is
not exhausted. -/
theorem shallowCrawl_discovery_first_page_only (parse : String → Option Url)
    (net : String → Option Response) (linksOf : String → String → List String)
    (startUrl : String) (maxPages : Nat) (ps : List CrawledPage)
    (h : shallowCrawl parse net linksOf startUrl maxPages = .ok ps) :
    ps = [] ∨ ∃ h1 tail, ps = CrawledPage.mk startUrl h1 :: tail ∧
      ∀ p ∈ tail, p.url = startUrl ∨ p.url ∈ linksOf h1 startUrl := by
  rcases shallowCrawlAux_first parse net linksOf maxPages [] [startUrl] [] rfl ps h with
    h0 | ⟨u, hh, tail, hps, hu, htail⟩
  · exact Or.inl h0
  · have hu2 : u = startUrl := by simpa using hu
    subst hu2
    refine Or.inr ⟨hh, tail, hps, fun p hp => ?_⟩
    rcases htail p hp with h2 | h2
    · exact Or.inl (by simpa using h2)
    · exact Or.inr h2

/-- C5 witness: the amended statement applied to a concrete two-page
crawl in which the second page is one of the first page's links. -/
theorem shallowCrawl_discovery_first_page_only_witness :
    ([⟨"https://w.example/a", "<p>"⟩, ⟨"https://w.example/b", "<p>"⟩] : List CrawledPage) = []
    ∨ ∃ h1 tail,
        ([⟨"https://w.example/a", "<p>"⟩, ⟨"https://w.example/b", "<p>"⟩] : List CrawledPage)
          = CrawledPage.mk "https://w.example/a" h1 :: tail
        ∧ ∀ p ∈ tail, p.url = "https://w.example/a"
            ∨ p.url ∈ (fun (_ : String) url =>
                if url = "https://w.example/a" then ["https://w.example/b"]
                else ([] : List String)) h1 "https://w.example/a" :=
  shallowCrawl_discovery_first_page_only
    (fun _ => some ⟨"https:", "w.example", "/"⟩)
    (fun _ => some ⟨true, "text/html", "<p>"⟩)
    (fun _ url => if url = "https://w.example/a" then ["https://w.example/b"] else [])
    "https://w.example/a" 4 _
    (by simp [shallowCrawl, shallowCrawlAux, fetchPage, validateUrl, enqueueLinks,
      strLower, jsStartsWith, listPrefixB, strIncludes, listInfixB,
      blockedProtocols, blockedHosts])

/-! ## Claim C6 — fallback completeness of the ranking step -/

/-- C6 counterexample: an `exe` installer with an empty extracted-command
list.  The claim requires a non-null uninstall command for every installer
kind, but `buildPackagingResult` (`src/lib/parser.js:357-372`) only
assigns a fallback uninstall command when `installer.type === 'msi'`, so
here `uninstallCommand` remains `null` while the install command is
synthesized. -/
theorem rank_fallback_null_uninstall_cex :
    (packagingEntryFor []
        ⟨"https://vendor.example/tool-setup.exe", "tool-setup.exe", "exe",
         ["https://vendor.example/download"], none⟩
        (detCandidateFor (fun p _ => p) (fun _ _ => "Tool") [] []
          ⟨"https://vendor.example/tool-setup.exe", "tool-setup.exe", "exe",
           ["https://vendor.example/download"], none⟩)).uninstallCommand = none
    ∧ (packagingEntryFor []
        ⟨"https://vendor.example/tool-setup.exe", "tool-setup.exe", "exe",
         ["https://vendor.example/download"], none⟩
        (detCandidateFor (fun p _ => p) (fun _ _ => "Tool") [] []
          ⟨"https://vendor.example/tool-setup.exe", "tool-setup.exe", "exe",
           ["https://vendor.example/download"], none⟩)).silentInstallCommand.isSome
        = true := by decide

/-- C6 (amended): for every installer and an empty candidate list, the
result-building step returns a non-null install command and a non-null
detection rule, with confidence `low` and at least one warning; the
uninstall command, however, is non-null exactly when the installer type
is `msi` — for every other kind it is left `null`. -/
theorem rank_fallback_completeness_amended (findExe : String → String → String)
    (guessApp : String → List PPage → String) (pages : List PPage)
    (installer : PInstaller) :
    (packagingEntryFor [] installer
        (detCandidateFor findExe guessApp [] pages installer)).silentInstallCommand.isSome = true
    ∧ (packagingEntryFor [] installer
        (detCandidateFor findExe guessApp [] pages installer)).detectionRule.isSome = true
    ∧ (packagingEntryFor [] installer
        (detCandidateFor findExe guessApp [] pages installer)).confidence = "low"
    ∧ (packagingEntryFor [] installer
        (detCandidateFor findExe guessApp [] pages installer)).warnings ≠ []
    ∧ ((packagingEntryFor [] installer
        (detCandidateFor findExe guessApp [] pages installer)).uninstallCommand.isSome = true
       ↔ installer.type = "msi") := by
  by_cases hm : installer.type = "msi" <;>
    simp [packagingEntryFor, detCandidateFor, extractGuid, extractGuidList, hm]

/-- C6 witness: the amended statement applied to a concrete MSI installer
with no candidates — its fallback uninstall command is present. -/
theorem rank_fallback_completeness_amended_witness :
    (packagingEntryFor [] ⟨"https://v.example/tool.msi", "tool.msi", "msi", [], none⟩
        (detCandidateFor (fun p _ => p) (fun _ _ => "Tool") [] []
          ⟨"https://v.example/tool.msi", "tool.msi", "msi", [], none⟩)).uninstallCommand.isSome
      = true :=
  (rank_fallback_completeness_amended (fun p _ => p) (fun _ _ => "Tool") []
      ⟨"https://v.example/tool.msi", "tool.msi", "msi", [], none⟩).2.2.2.2.mpr rfl

/-! ## Claim C7 — compound extensions -/

/-- C7 (code bug): `classifyInstaller` extracts the extension with
`lastIndexOf('.')`, so for `app.tar.gz` it computes `.gz` and returns
kind `UNKNOWN` — even though the code's own archive table lists
`.tar.gz`, which the last-dot extraction can never produce (the entry is
dead).  The second conjunct shows the table itself would classify
`.tar.gz` as `ARCHIVE`, as the claim expects. -/
theorem classifyInstaller_tar_gz_divergence :
    classifyInstaller (fun _ => none) (some "app.tar.gz")
      = ⟨"UNKNOWN", ".gz", "app.tar"⟩
    ∧ kindOfExtension ".tar.gz" = "ARCHIVE" := by decide

/-! ## Claim C8 — MSI short-circuit -/

/-- C8: for the filename `app-1.2.3.msi` (whose parse as a URL fails, as
`new URL` does on a bare filename), `crawlAndAnalyze` short-circuits:
for arbitrary network and extraction oracles — so no crawl can influence
the result — it reports `pagesCrawled = 0` and a single recommendation
whose install command is `msiexec /i "app-1.2.3.msi" /qn /norestart`,
whose uninstall command is the ProductCode placeholder, and whose
detection rule is the MSI-ProductCode kind. -/
theorem crawlAndAnalyze_msi_shortcircuit (parse : String → Option Url)
    (att : String → Nat → Except String String)
    (extractText : String → String) (anchors : String → List (String × String))
    (resolve : String → String → Option String)
    (matchCmd : String → Option String) (extVer : String → Option String)
    (stripVer : String → String) (pageUrl installerUrl : String)
    (hparse : parse "app-1.2.3.msi" = none) :
    (crawlAndAnalyze parse att extractText anchors resolve matchCmd extVer stripVer
        pageUrl installerUrl (some "app-1.2.3.msi")).pagesCrawled = 0
    ∧ (crawlAndAnalyze parse att extractText anchors resolve matchCmd extVer stripVer
        pageUrl installerUrl (some "app-1.2.3.msi")).packaging.length = 1
    ∧ ∀ rec ∈ (crawlAndAnalyze parse att extractText anchors resolve matchCmd extVer
        stripVer pageUrl installerUrl (some "app-1.2.3.msi")).packaging,
      rec.silentInstallCommand = "msiexec /i \"app-1.2.3.msi\" /qn /norestart"
      ∧ rec.uninstallCommand = "msiexec /x \x7bPRODUCT-CODE-GOES-HERE\x7d /qn /norestart"
      ∧ (∃ note recommendation, rec.detectionRule = some (.msi note recommendation))
      ∧ rec.pagesCrawled = 0 := by
  have hc : classifyInstaller parse (some "app-1.2.3.msi")
      = ⟨"MSI", ".msi", "app-1.2.3"⟩ := by
    simp only [classifyInstaller, hparse]
    decide
  refine ⟨?_, ?_, ?_⟩
  · simp only [crawlAndAnalyze, hc]
    norm_num
  · simp only [crawlAndAnalyze, hc]
    norm_num
  · intro rec hrec
    simp only [crawlAndAnalyze, hc] at hrec
    norm_num at hrec
    subst hrec
    exact ⟨rfl, rfl, ⟨_, _, rfl⟩, rfl⟩

/-- C8 witness: the short-circuit applied with concrete oracles (an
offline network, parse failing on the bare filename). -/
theorem crawlAndAnalyze_msi_shortcircuit_witness :
    (crawlAndAnalyze (fun _ => none) (fun _ _ => .error "offline") (fun s => s)
        (fun _ => []) (fun _ _ => none) (fun _ => none) (fun _ => none) (fun s => s)
        "https://vendor.example/download" "https://vendor.example/app-1.2.3.msi"
        (some "app-1.2.3.msi")).pagesCrawled = 0 :=
  (crawlAndAnalyze_msi_shortcircuit (fun _ => none) (fun _ _ => .error "offline")
      (fun s => s) (fun _ => []) (fun _ _ => none) (fun _ => none) (fun _ => none)
      (fun s => s) "https://vendor.example/download"
      "https://vendor.example/app-1.2.3.msi" rfl).1

/-! ## Claim C9 — case-sensitive extension comparison -/

/-- C9: the extension comparison in `classifyInstaller` is case
sensitive: whenever the computed extension is a letter-case variant of a
recognized extension (its lowercasing is recognized) but not an exact
match, the kind is `UNKNOWN` — the lowercased copy computed on line 13 is
never consulted. -/
theorem classifyInstaller_case_sensitive (parse : String → Option Url) (fn : Option String)
    (_hcase : strLower (classifyInstaller parse fn).extension ∈ recognizedExtensions)
    (hexact : (classifyInstaller parse fn).extension ∉ recognizedExtensions) :
    (classifyInstaller parse fn).kind = "UNKNOWN" := by
  rw [classifyInstaller_kind_eq]
  simp only [recognizedExtensions, List.mem_cons, List.not_mem_nil, or_false] at hexact
  push_neg at hexact
  obtain ⟨h1, h2, h3, h4, h5, h6, h7⟩ := hexact
  unfold kindOfExtension
  rw [if_neg h1, if_neg h2, if_neg ?_]
  intro hc
  have hmem : (classifyInstaller parse fn).extension
      ∈ [".zip", ".7z", ".rar", ".tar.gz", ".tgz"] := by simpa using hc
  simp only [List.mem_cons, List.not_mem_nil, or_false] at hmem
  rcases hmem with h | h | h | h | h
  · exact h3 h
  · exact h4 h
  · exact h5 h
  · exact h6 h
  · exact h7 h

/-- C9 witness: `Setup.MSI` — the lowercased extension `.msi` is
recognized, the exact `.MSI` is not, and the kind is `UNKNOWN`. -/
theorem classifyInstaller_case_sensitive_witness :
    strLower (classifyInstaller (fun _ => none) (some "Setup.MSI")).extension
        ∈ recognizedExtensions
    ∧ (classifyInstaller (fun _ => none) (some "Setup.MSI")).kind = "UNKNOWN" :=
  ⟨by decide,
   classifyInstaller_case_sensitive (fun _ => none) (some "Setup.MSI")
     (by decide) (by decide)⟩

/-! ## Claim C10 — crawlAndAnalyze always resolves with one recommendation -/

/-- C10: for every input triple and any oracles — the filename may be
`null` (`none`) or empty — `crawlAndAnalyze` returns (never throws, being
a total function of its oracles) a result with `success = true` and a
packaging array of exactly one recommendation; and with a network that
fails every attempt, the documentation crawl is absorbed internally into
zero crawled pages rather than surfacing as an error. -/
theorem crawlAndAnalyze_always_succeeds (parse : String → Option Url)
    (att : String → Nat → Except String String)
    (extractText : String → String) (anchors : String → List (String × String))
    (resolve : String → String → Option String)
    (matchCmd : String → Option String) (extVer : String → Option String)
    (stripVer : String → String) (pageUrl installerUrl : String)
    (filename : Option String) :
    (crawlAndAnalyze parse att extractText anchors resolve matchCmd extVer stripVer
        pageUrl installerUrl filename).success = true
    ∧ (crawlAndAnalyze parse att extractText anchors resolve matchCmd extVer stripVer
        pageUrl installerUrl filename).packaging.length = 1
    ∧ (crawlAndAnalyze parse (fun _ _ => .error "ECONNREFUSED") extractText anchors
        resolve matchCmd extVer stripVer pageUrl installerUrl filename).pagesCrawled = 0 := by
  refine ⟨?_, ?_, ?_⟩ <;>
  · simp only [crawlAndAnalyze]
    split_ifs <;>
      simp [crawlDocumentationPages, fetchWithRetry, fetchWithRetryGo]
